import Mathlib

/-!
Verification of the LLA-to-ECEF trajectory pipeline (`scitech_lab.py`).

The development embeds the four pipeline stages as Lean functions:

* `lla_to_ecef` — the WGS84 geodetic-to-Cartesian converter, over real numbers.
* `cal_ecef_velocity` / `calc_velocity` — the backward-difference velocity
  estimator.  Since the Python code relies on IEEE-754 division-by-zero
  producing `inf`/`nan` values that propagate through squares, sums and
  square roots, the estimator's values live in `FP`, an extended-real type
  with explicit `posInf`, `negInf` and `nan` constructors whose arithmetic
  mirrors the IEEE rules numpy uses for the operations involved.
* `interp1dEval` — the scipy `interp1d` piecewise-linear interpolant
  (an external library, modelled from the spec).
* `interpolate_src_velocity` / `interpolate_new_velocity` — the two query
  entry points, with the append-only log and console modelled as explicit
  string lists and the Python `str` conversion of numbers kept abstract
  (parameters `s1`, `s2`).
-/

/-- Extended value type for IEEE-754 double results as numpy produces them:
a finite real, positive or negative infinity, or not-a-number. -/
inductive FP where
  | fin : ℝ → FP
  | posInf : FP
  | negInf : FP
  | nan : FP

/-- IEEE division of two finite reals as numpy performs it: a nonzero value
divided by zero gives a signed infinity, zero divided by zero gives NaN,
otherwise the real quotient. -/
noncomputable def fdiv (a b : ℝ) : FP :=
  if b = 0 then (if a = 0 then .nan else if 0 < a then .posInf else .negInf)
  else .fin (a / b)

/-- Squaring (`** 2`) on extended values: both infinities square to positive
infinity, NaN propagates. -/
def FP.sq : FP → FP
  | .fin x => .fin (x ^ 2)
  | .posInf => .posInf
  | .negInf => .posInf
  | .nan => .nan

/-- IEEE addition on extended values: NaN propagates, opposite infinities
give NaN, an infinity absorbs a finite value. -/
def FP.add : FP → FP → FP
  | .nan, _ => .nan
  | _, .nan => .nan
  | .posInf, .negInf => .nan
  | .negInf, .posInf => .nan
  | .posInf, _ => .posInf
  | _, .posInf => .posInf
  | .negInf, _ => .negInf
  | _, .negInf => .negInf
  | .fin a, .fin b => .fin (a + b)

/-- IEEE subtraction on extended values. -/
def FP.sub : FP → FP → FP
  | .nan, _ => .nan
  | _, .nan => .nan
  | .posInf, .posInf => .nan
  | .negInf, .negInf => .nan
  | .posInf, _ => .posInf
  | .negInf, _ => .negInf
  | .fin _, .posInf => .negInf
  | .fin _, .negInf => .posInf
  | .fin a, .fin b => .fin (a - b)

/-- `np.sqrt` on extended values: NaN for negative arguments (numpy emits a
warning and yields NaN), positive infinity maps to itself. -/
noncomputable def FP.sqrt : FP → FP
  | .fin x => if x < 0 then .nan else .fin (Real.sqrt x)
  | .posInf => .posInf
  | .negInf => .nan
  | .nan => .nan

/-- Multiplication of an extended value by a finite real scalar: an infinity
times zero is NaN, otherwise signs combine as usual. -/
noncomputable def FP.mulR : FP → ℝ → FP
  | .nan, _ => .nan
  | .posInf, c => if 0 < c then .posInf else if c < 0 then .negInf else .nan
  | .negInf, c => if 0 < c then .negInf else if c < 0 then .posInf else .nan
  | .fin x, c => .fin (x * c)

/-- Division of an extended value by a finite real scalar. -/
noncomputable def FP.divR : FP → ℝ → FP
  | .nan, _ => .nan
  | .posInf, c => if c < 0 then .negInf else .posInf
  | .negInf, c => if c < 0 then .posInf else .negInf
  | .fin x, c =>
      if c = 0 then (if x = 0 then .nan else if 0 < x then .posInf else .negInf)
      else .fin (x / c)

/-- Whether a value is an infinity or NaN (i.e. not finite). -/
def FP.infOrNan : FP → Bool
  | .fin _ => false
  | _ => true

/-- Elementwise combination of three equal-length lists, mirroring numpy's
vectorised arithmetic over aligned arrays. -/
def zip3W (f : α → β → γ → δ) : List α → List β → List γ → List δ
  | a :: as, b :: bs, c :: cs => f a b c :: zip3W f as bs cs
  | _, _, _ => []

/-- One sample of `lla_to_ecef` (`scitech_lab.py`, lines 40-82): degrees to
radians, kilometers to meters, WGS84 constants, prime-vertical radius, then
the three Cartesian coordinates. -/
noncomputable def lla_to_ecef_sample (lat lon alt : ℝ) : ℝ × ℝ × ℝ :=
  let deg_2_rads := Real.pi / 180
  let lat := deg_2_rads * lat
  let lon := deg_2_rads * lon
  let alt := 1000 * alt
  let cos_lat := Real.cos lat
  let cos_lon := Real.cos lon
  let sin_lat := Real.sin lat
  let A : ℝ := 6378137
  let B : ℝ := 6356752.31424518
  let H := alt
  let E1 := Real.sqrt ((A ^ 2 - B ^ 2) / A ^ 2)
  let E2 := E1 ^ 2
  let N := A / Real.sqrt (1 - E2 * sin_lat ^ 2)
  ((N + H) * cos_lat * cos_lon, (N + H) * cos_lat * Real.sin lon,
    (N * (1 - E2) + H) * sin_lat)

/-- `lla_to_ecef` over whole columns: the source applies the arithmetic to
aligned pandas Series; here each coordinate list is the elementwise map of
`lla_to_ecef_sample` over the zipped inputs. -/
noncomputable def lla_to_ecef (lat lon alt : List ℝ) :
    List ℝ × List ℝ × List ℝ :=
  (zip3W (fun la lo al => (lla_to_ecef_sample la lo al).1) lat lon alt,
   zip3W (fun la lo al => (lla_to_ecef_sample la lo al).2.1) lat lon alt,
   zip3W (fun la lo al => (lla_to_ecef_sample la lo al).2.2) lat lon alt)

/-- Inner `calc_velocity` (`scitech_lab.py`, lines 98-106): `np.zeros(n)`
leaves index 0 at zero; the loop over `range(1, n)` sets each later index to
the backward difference quotient, whose division follows IEEE semantics. -/
noncomputable def calc_velocity (time position : List ℝ) : List FP :=
  (List.range position.length).map fun i =>
    if i = 0 then .fin 0
    else fdiv (position[i]! - position[i - 1]!) (time[i]! - time[i - 1]!)

/-- `cal_ecef_velocity` (`scitech_lab.py`, lines 85-118): component
velocities from `calc_velocity`, combined elementwise as
`np.sqrt(v0**2 + v1**2 + v2**2)`. -/
noncomputable def cal_ecef_velocity (t x y z : List ℝ) : List FP :=
  zip3W (fun a b c => FP.sqrt (FP.add (FP.add (FP.sq a) (FP.sq b)) (FP.sq c)))
    (calc_velocity t x) (calc_velocity t y) (calc_velocity t z)

/-- Error kinds raised at the library boundaries: missing input file,
unparseable input file, attribute access on a table lacking a column,
scipy construction errors, and the interpolation out-of-bounds condition
the spec calls `DomainError`. -/
inductive IError where
  | fileNotFound : IError
  | parseError : IError
  | attributeError : IError
  | valueError : IError
  | domainError : IError
  deriving DecidableEq

/-- In-memory table keyed by column name, as produced by `pandas.read_csv`:
named numeric columns in file order. -/
structure Table where
  cols : List (String × List ℝ)

/-- Attribute access `df.<name>` on a pandas DataFrame: the column when it
exists, an `AttributeError` otherwise. -/
def getCol (df : Table) (name : String) : Except IError (List ℝ) :=
  match df.cols.lookup name with
  | some c => .ok c
  | none => .error .attributeError

/-- Abstract state of the file named by the path handed to the loader:
missing, present but not parseable as delimited tabular data, or parseable
into a table of named columns. -/
inductive FileContent where
  | missing : FileContent
  | unparseable : FileContent
  | parsed : Table → FileContent

/-- Modelled from the spec: the `pandas.read_csv` call at the library
boundary of `load_data` (`scitech_lab.py`, line 36).  A missing path raises
a file-not-found error and a file that cannot be parsed as tabular data
raises a parse error; per the design notes the loosely-typed table defers
missing-column errors to first attribute access, so a parseable file is
returned as a table without any schema check. -/
def load_data : FileContent → Except IError Table
  | .missing => .error .fileNotFound
  | .unparseable => .error .parseError
  | .parsed df => .ok df

/-- Modelled from the spec: the piecewise-linear evaluation inside scipy's
`interp1d`, walking the breakpoints (assumed in strictly increasing time
order, as the spec states) and evaluating
`slope * (t - x_lo) + y_lo` on the segment containing `t`. -/
noncomputable def linInterp : List (ℝ × FP) → ℝ → FP
  | [], _ => .nan
  | [(_, y0)], _ => y0
  | (x0, y0) :: (x1, y1) :: rest, t =>
      if t ≤ x1 then
        FP.add (FP.mulR (FP.divR (FP.sub y1 y0) (x1 - x0)) (t - x0)) y0
      else linInterp ((x1, y1) :: rest) t

/-- Modelled from the spec: `scipy.interpolate.interp1d` built over the
`(time, speed)` breakpoints and evaluated at one query time.  Construction
rejects mismatched breakpoint series with a `ValueError`; a query strictly
below the minimum or strictly above the maximum breakpoint time raises the
out-of-bounds `DomainError`; otherwise the piecewise-linear interpolant is
evaluated. -/
noncomputable def interp1dEval (xs : List ℝ) (ys : List FP) (t : ℝ) :
    Except IError FP :=
  if xs.length = ys.length then
    match xs with
    | [] => .error .valueError
    | x0 :: rest =>
        if t < rest.foldl min x0 ∨ rest.foldl max x0 < t then
          .error .domainError
        else .ok (linInterp ((x0 :: rest).zip ys) t)
  else .error .valueError

/-- Observable outcome of a successful interpolation query: the log file
contents after the append, the lines printed to the console, and the Python
return value of the call. -/
structure QueryOut where
  newLog : List String
  console : List String
  retval : Option FP

/-- `interpolate_src_velocity` (`scitech_lab.py`, lines 122-149): build the
interpolant, evaluate it at `time_request` while formatting the report
string (any exception propagates before the log file is opened), append the
string to the log, print it, and return `print`'s `None`.  `s1` and `s2`
stand for Python's `str` on the query time and on the interpolated value. -/
noncomputable def interpolate_src_velocity (s1 : ℝ → String) (s2 : FP → String)
    (time : List ℝ) (velocity : List FP) (time_request : ℝ)
    (log : List String) : Except IError QueryOut :=
  match interp1dEval time velocity time_request with
  | .error e => .error e
  | .ok v =>
      let output :=
        "\nVelocity(time=" ++ s1 time_request ++ "seconds) = " ++ s2 v
          ++ " m/s\n"
      .ok ⟨log ++ [output], [output], none⟩

/-- `interpolate_new_velocity` (`scitech_lab.py`, lines 152-190): load the
file, fetch the `latitude`, `longitude`, `altitude` columns, convert to
ECEF, fetch `time` and derive the speed series, then perform the same
interpolation, append and print as the source duplicates inline. -/
noncomputable def interpolate_new_velocity (s1 : ℝ → String) (s2 : FP → String)
    (fc : FileContent) (time_request : ℝ) (log : List String) :
    Except IError QueryOut :=
  match load_data fc with
  | .error e => .error e
  | .ok df =>
    match getCol df "latitude" with
    | .error e => .error e
    | .ok lat =>
      match getCol df "longitude" with
      | .error e => .error e
      | .ok lon =>
        match getCol df "altitude" with
        | .error e => .error e
        | .ok alt =>
          let XYZ := lla_to_ecef lat lon alt
          match getCol df "time" with
          | .error e => .error e
          | .ok t =>
            let V := cal_ecef_velocity t XYZ.1 XYZ.2.1 XYZ.2.2
            match interp1dEval t V time_request with
            | .error e => .error e
            | .ok v =>
                let output :=
                  "\nVelocity(time=" ++ s1 time_request ++ "seconds) = "
                    ++ s2 v ++ " m/s\n"
                .ok ⟨log ++ [output], [output], none⟩

/-- The Loader → Converter → Estimator pipeline of the spec, producing the
`(time, speed)` series that the build-from-existing-series entry point then
consumes; used to state the equivalence of the two entry variants. -/
noncomputable def pipelineSeries (fc : FileContent) :
    Except IError (List ℝ × List FP) :=
  match load_data fc with
  | .error e => .error e
  | .ok df =>
    match getCol df "latitude" with
    | .error e => .error e
    | .ok lat =>
      match getCol df "longitude" with
      | .error e => .error e
      | .ok lon =>
        match getCol df "altitude" with
        | .error e => .error e
        | .ok alt =>
          let XYZ := lla_to_ecef lat lon alt
          match getCol df "time" with
          | .error e => .error e
          | .ok t => .ok (t, cal_ecef_velocity t XYZ.1 XYZ.2.1 XYZ.2.2)

/-- Log contents after a query: unchanged when the query raised. -/
def logAfter (r : Except IError QueryOut) (log : List String) : List String :=
  match r with
  | .ok o => o.newLog
  | .error _ => log

/-- Python return value of a query call: the value of the `return`
statement when the call completed, `none` when it raised. -/
def returnedValue : Except IError QueryOut → Option FP
  | .ok o => o.retval
  | .error _ => none

/-- Squaring a finite value. -/
@[simp] theorem FP.sq_fin (x : ℝ) : FP.sq (.fin x) = .fin (x ^ 2) := rfl

/-- Adding two finite values. -/
@[simp] theorem FP.add_fin (a b : ℝ) :
    FP.add (.fin a) (.fin b) = .fin (a + b) := rfl

/-- Subtracting two finite values. -/
@[simp] theorem FP.sub_fin (a b : ℝ) :
    FP.sub (.fin a) (.fin b) = .fin (a - b) := rfl

/-- Square root of a nonnegative finite value. -/
theorem FP.sqrt_fin_nonneg {x : ℝ} (h : 0 ≤ x) :
    FP.sqrt (.fin x) = .fin (Real.sqrt x) := by
  simp [FP.sqrt, not_lt.mpr h]

/-- Scaling a finite value by a real. -/
@[simp] theorem FP.mulR_fin (x c : ℝ) : FP.mulR (.fin x) c = .fin (x * c) := rfl

/-- Dividing a finite value by a nonzero real. -/
theorem FP.divR_fin {c : ℝ} (x : ℝ) (h : c ≠ 0) :
    FP.divR (.fin x) c = .fin (x / c) := by
  simp [FP.divR, h]

/-- Division of finite reals with a nonzero denominator is the finite
quotient. -/
theorem fdiv_ne_zero (a : ℝ) {b : ℝ} (h : b ≠ 0) : fdiv a b = .fin (a / b) := by
  simp [fdiv, h]

/-- Length of an elementwise triple combination of equal-length lists. -/
theorem zip3W_length_eq (f : α → β → γ → δ) :
    ∀ (as : List α) (bs : List β) (cs : List γ),
      bs.length = as.length → cs.length = as.length →
      (zip3W f as bs cs).length = as.length
  | [], [], [], _, _ => rfl
  | [], _ :: _, _, h, _ => by simp at h
  | [], [], _ :: _, _, h => by simp at h
  | _ :: _, [], _, h, _ => by simp at h
  | _ :: _, _ :: _, [], _, h => by simp at h
  | a :: as, b :: bs, c :: cs, hb, hc => by
      simp only [zip3W, List.length_cons, Nat.succ.injEq] at hb hc ⊢
      exact zip3W_length_eq f as bs cs hb hc

/-- Indexing an elementwise triple combination. -/
theorem zip3W_getElem? (f : α → β → γ → δ) :
    ∀ (as : List α) (bs : List β) (cs : List γ) (i : ℕ) (a : α) (b : β)
      (c : γ), as[i]? = some a → bs[i]? = some b → cs[i]? = some c →
      (zip3W f as bs cs)[i]? = some (f a b c)
  | [], _, _, i, _, _, _, ha, _, _ => by simp at ha
  | _ :: _, [], _, i, _, _, _, _, hb, _ => by simp at hb
  | _ :: _, _ :: _, [], i, _, _, _, _, _, hc => by simp at hc
  | a0 :: as, b0 :: bs, c0 :: cs, 0, a, b, c, ha, hb, hc => by
      simp only [List.getElem?_cons_zero, Option.some.injEq] at ha hb hc
      subst ha; subst hb; subst hc
      simp only [zip3W, List.getElem?_cons_zero]
  | a0 :: as, b0 :: bs, c0 :: cs, i + 1, a, b, c, ha, hb, hc => by
      simp only [List.getElem?_cons_succ] at ha hb hc
      simpa only [zip3W, List.getElem?_cons_succ] using
        zip3W_getElem? f as bs cs i a b c ha hb hc

/-- The component velocity list has the position length. -/
theorem calc_velocity_length (time position : List ℝ) :
    (calc_velocity time position).length = position.length := by
  simp [calc_velocity]

/-- Element 0 of a component velocity is the zero left by `np.zeros`. -/
theorem calc_velocity_zero (time position : List ℝ)
    (h : 0 < position.length) : (calc_velocity time position)[0]? =
      some (.fin 0) := by
  simp [calc_velocity, List.getElem?_range h]

/-- A later element of a component velocity is the backward-difference
quotient of the recorded samples. -/
theorem calc_velocity_succ (time position : List ℝ) (i : ℕ) (hi : 1 ≤ i)
    (ti ti' pi pi' : ℝ) (hti : time[i]? = some ti)
    (hti' : time[i - 1]? = some ti') (hpi : position[i]? = some pi)
    (hpi' : position[i - 1]? = some pi') :
    (calc_velocity time position)[i]? = some (fdiv (pi - pi') (ti - ti')) := by
  obtain ⟨hip, hpe⟩ := List.getElem?_eq_some_iff.mp hpi
  obtain ⟨hip', hpe'⟩ := List.getElem?_eq_some_iff.mp hpi'
  obtain ⟨hit, hte⟩ := List.getElem?_eq_some_iff.mp hti
  obtain ⟨hit', hte'⟩ := List.getElem?_eq_some_iff.mp hti'
  have hine : i ≠ 0 := by omega
  simp only [calc_velocity, List.getElem?_map, List.getElem?_range hip,
    Option.map_some', hine, if_false, Option.some.injEq]
  rw [getElem!_pos position i hip, getElem!_pos position (i - 1) hip',
    getElem!_pos time i hit, getElem!_pos time (i - 1) hit', hpe, hpe', hte,
    hte']

/-- A left fold of `min` is below its initial value. -/
theorem foldl_min_le_init : ∀ (l : List ℝ) (b : ℝ), l.foldl min b ≤ b
  | [], _ => le_refl _
  | c :: l, b => le_trans (foldl_min_le_init l (min b c)) (min_le_left b c)

/-- A left fold of `min` is below every member of the list. -/
theorem foldl_min_le_of_mem :
    ∀ (l : List ℝ) (b a : ℝ), a ∈ l → l.foldl min b ≤ a
  | c :: l, b, a, h => by
      rcases List.mem_cons.mp h with h | h
      · subst h
        exact le_trans (foldl_min_le_init l (min b a)) (min_le_right b a)
      · exact foldl_min_le_of_mem l (min b c) a h

/-- A left fold of `max` is above its initial value. -/
theorem le_foldl_max_init : ∀ (l : List ℝ) (b : ℝ), b ≤ l.foldl max b
  | [], _ => le_refl _
  | c :: l, b => le_trans (le_max_left b c) (le_foldl_max_init l (max b c))

/-- A left fold of `max` is above every member of the list. -/
theorem le_foldl_max_of_mem :
    ∀ (l : List ℝ) (b a : ℝ), a ∈ l → a ≤ l.foldl max b
  | c :: l, b, a, h => by
      rcases List.mem_cons.mp h with h | h
      · subst h
        exact le_trans (le_max_right b a) (le_foldl_max_init l (max b a))
      · exact le_foldl_max_of_mem l (max b c) a h

/-- The sample conversion written with the eccentricity squared in closed
form: squaring the square root in `E2 = E1 ** 2` recovers
`(A^2 - B^2) / A^2` because that quotient is nonnegative. -/
theorem lla_to_ecef_sample_eq (la lo al : ℝ) :
    lla_to_ecef_sample la lo al =
      ((6378137 / Real.sqrt (1 -
          (6378137 ^ 2 - 6356752.31424518 ^ 2) / 6378137 ^ 2 *
            Real.sin (Real.pi / 180 * la) ^ 2) + 1000 * al) *
        Real.cos (Real.pi / 180 * la) * Real.cos (Real.pi / 180 * lo),
       (6378137 / Real.sqrt (1 -
          (6378137 ^ 2 - 6356752.31424518 ^ 2) / 6378137 ^ 2 *
            Real.sin (Real.pi / 180 * la) ^ 2) + 1000 * al) *
        Real.cos (Real.pi / 180 * la) * Real.sin (Real.pi / 180 * lo),
       (6378137 / Real.sqrt (1 -
          (6378137 ^ 2 - 6356752.31424518 ^ 2) / 6378137 ^ 2 *
            Real.sin (Real.pi / 180 * la) ^ 2) *
          (1 - (6378137 ^ 2 - 6356752.31424518 ^ 2) / 6378137 ^ 2) +
         1000 * al) * Real.sin (Real.pi / 180 * la)) := by
  simp only [lla_to_ecef_sample]
  rw [Real.sq_sqrt (by norm_num :
    (0:ℝ) ≤ (6378137 ^ 2 - 6356752.31424518 ^ 2) / 6378137 ^ 2)]

/-- C1: for equal-length inputs of length N ≥ 1 the converter returns three
length-N sequences whose entries are, per index, the WGS84 formulas
X = (N+H)·cos·cos, Y = (N+H)·cos·sin, Z = (N·(1−E2)+H)·sin with latitudes
and longitudes in radians, H = 1000·altitude, A = 6378137,
B = 6356752.31424518, E2 = (A²−B²)/A² and N = A/√(1 − E2·sin²(lat)). -/
theorem lla_to_ecef_formula (lat lon alt : List ℝ)
    (hlon : lon.length = lat.length) (halt : alt.length = lat.length)
    (hN : 1 ≤ lat.length) :
    ((lla_to_ecef lat lon alt).1.length = lat.length ∧
      (lla_to_ecef lat lon alt).2.1.length = lat.length ∧
      (lla_to_ecef lat lon alt).2.2.length = lat.length) ∧
    ∀ (i : ℕ) (la lo al : ℝ), lat[i]? = some la → lon[i]? = some lo →
      alt[i]? = some al →
      (lla_to_ecef lat lon alt).1[i]? =
        some ((6378137 / Real.sqrt (1 -
            (6378137 ^ 2 - 6356752.31424518 ^ 2) / 6378137 ^ 2 *
              Real.sin (Real.pi / 180 * la) ^ 2) + 1000 * al) *
          Real.cos (Real.pi / 180 * la) * Real.cos (Real.pi / 180 * lo)) ∧
      (lla_to_ecef lat lon alt).2.1[i]? =
        some ((6378137 / Real.sqrt (1 -
            (6378137 ^ 2 - 6356752.31424518 ^ 2) / 6378137 ^ 2 *
              Real.sin (Real.pi / 180 * la) ^ 2) + 1000 * al) *
          Real.cos (Real.pi / 180 * la) * Real.sin (Real.pi / 180 * lo)) ∧
      (lla_to_ecef lat lon alt).2.2[i]? =
        some ((6378137 / Real.sqrt (1 -
            (6378137 ^ 2 - 6356752.31424518 ^ 2) / 6378137 ^ 2 *
              Real.sin (Real.pi / 180 * la) ^ 2) *
            (1 - (6378137 ^ 2 - 6356752.31424518 ^ 2) / 6378137 ^ 2) +
          1000 * al) * Real.sin (Real.pi / 180 * la)) := by
  refine ⟨⟨zip3W_length_eq _ lat lon alt hlon halt,
    zip3W_length_eq _ lat lon alt hlon halt,
    zip3W_length_eq _ lat lon alt hlon halt⟩, ?_⟩
  intro i la lo al hla hlo hal
  refine ⟨?_, ?_, ?_⟩
  · rw [show (lla_to_ecef lat lon alt).1 =
      zip3W (fun la lo al => (lla_to_ecef_sample la lo al).1) lat lon alt
      from rfl,
      zip3W_getElem? _ lat lon alt i la lo al hla hlo hal,
      lla_to_ecef_sample_eq]
  · rw [show (lla_to_ecef lat lon alt).2.1 =
      zip3W (fun la lo al => (lla_to_ecef_sample la lo al).2.1) lat lon alt
      from rfl,
      zip3W_getElem? _ lat lon alt i la lo al hla hlo hal,
      lla_to_ecef_sample_eq]
  · rw [show (lla_to_ecef lat lon alt).2.2 =
      zip3W (fun la lo al => (lla_to_ecef_sample la lo al).2.2) lat lon alt
      from rfl,
      zip3W_getElem? _ lat lon alt i la lo al hla hlo hal,
      lla_to_ecef_sample_eq]

/-- Witness for C1 at the single sample (0, 0, 0). -/
theorem lla_to_ecef_formula_witness :
    (lla_to_ecef [0] [0] [0]).1.length = 1 ∧
    (lla_to_ecef [0] [0] [0]).1[0]? =
      some ((6378137 / Real.sqrt (1 -
          (6378137 ^ 2 - 6356752.31424518 ^ 2) / 6378137 ^ 2 *
            Real.sin (Real.pi / 180 * 0) ^ 2) + 1000 * 0) *
        Real.cos (Real.pi / 180 * 0) * Real.cos (Real.pi / 180 * 0)) := by
  obtain ⟨hlen, hidx⟩ :=
    lla_to_ecef_formula [0] [0] [0] rfl rfl (by simp)
  exact ⟨hlen.1, (hidx 0 0 0 0 rfl rfl rfl).1⟩

/-- C9: at (lat, lon, alt) = (0, 0, 0) the converter returns exactly
(A, 0, 0) with A the semi-major axis, and at (90, 0, 0) it returns exactly
(0, 0, B) with B the semi-minor axis. -/
theorem lla_to_ecef_special_points :
    lla_to_ecef [0] [0] [0] = ([6378137], [0], [0]) ∧
    lla_to_ecef [90] [0] [0] = ([0], [0], [6356752.31424518]) := by
  have h90 : Real.pi / 180 * 90 = Real.pi / 2 := by ring
  have hq : Real.sqrt ((6378137 ^ 2 - 6356752.31424518 ^ 2) / 6378137 ^ 2)
      ^ 2 = (6378137 ^ 2 - 6356752.31424518 ^ 2) / 6378137 ^ 2 :=
    Real.sq_sqrt (by norm_num)
  constructor
  · simp only [lla_to_ecef, zip3W, lla_to_ecef_sample, mul_zero,
      Real.sin_zero, Real.cos_zero, Real.sqrt_one]
    norm_num
  · simp only [lla_to_ecef, zip3W, lla_to_ecef_sample, h90, mul_zero,
      Real.sin_pi_div_two, Real.cos_pi_div_two, Real.sin_zero,
      Real.cos_zero, one_pow, mul_one, zero_mul, mul_zero, add_zero, hq]
    rw [show (1:ℝ) - (6378137 ^ 2 - 6356752.31424518 ^ 2) / 6378137 ^ 2 =
      (6356752.31424518 / 6378137) ^ 2 by norm_num,
      Real.sqrt_sq (by norm_num)]
    norm_num

/-- C2: for equal-length inputs of length N ≥ 1 the estimator returns a
length-N speed series whose element 0 is exactly zero regardless of the
sample values, and whose element i ≥ 1 is the Euclidean norm of the three
backward-difference component velocities whenever the timestamps at i and
i−1 differ. -/
theorem cal_ecef_velocity_formula (t x y z : List ℝ)
    (ht : t.length = x.length) (hy : y.length = x.length)
    (hz : z.length = x.length) (hN : 1 ≤ x.length) :
    (cal_ecef_velocity t x y z).length = x.length ∧
    (cal_ecef_velocity t x y z)[0]? = some (.fin 0) ∧
    ∀ (i : ℕ), 1 ≤ i → ∀ (ti ti' xi xi' yi yi' zi zi' : ℝ),
      t[i]? = some ti → t[i - 1]? = some ti' → x[i]? = some xi →
      x[i - 1]? = some xi' → y[i]? = some yi → y[i - 1]? = some yi' →
      z[i]? = some zi → z[i - 1]? = some zi' → ti - ti' ≠ 0 →
      (cal_ecef_velocity t x y z)[i]? =
        some (.fin (Real.sqrt (((xi - xi') / (ti - ti')) ^ 2 +
          ((yi - yi') / (ti - ti')) ^ 2 + ((zi - zi') / (ti - ti')) ^ 2))) := by
  have hlx : (calc_velocity t x).length = x.length := calc_velocity_length t x
  have hly : (calc_velocity t y).length = (calc_velocity t x).length := by
    rw [calc_velocity_length, calc_velocity_length, hy]
  have hlz : (calc_velocity t z).length = (calc_velocity t x).length := by
    rw [calc_velocity_length, calc_velocity_length, hz]
  refine ⟨by rw [cal_ecef_velocity, zip3W_length_eq _ _ _ _ hly hlz, hlx],
    ?_, ?_⟩
  · rw [cal_ecef_velocity, zip3W_getElem? _ _ _ _ 0 _ _ _
      (calc_velocity_zero t x hN) (calc_velocity_zero t y (hy ▸ hN))
      (calc_velocity_zero t z (hz ▸ hN))]
    norm_num [FP.sq, FP.add, FP.sqrt]
  · intro i hi ti ti' xi xi' yi yi' zi zi' hti hti' hxi hxi' hyi hyi' hzi
      hzi' hdt
    rw [cal_ecef_velocity, zip3W_getElem? _ _ _ _ i _ _ _
      (calc_velocity_succ t x i hi ti ti' xi xi' hti hti' hxi hxi')
      (calc_velocity_succ t y i hi ti ti' yi yi' hti hti' hyi hyi')
      (calc_velocity_succ t z i hi ti ti' zi zi' hti hti' hzi hzi')]
    simp only [fdiv_ne_zero _ hdt, FP.sq_fin, FP.add_fin]
    rw [FP.sqrt_fin_nonneg (by positivity)]

/-- Witness for C2 at two samples 10 seconds apart with position deltas
(30, 40, 0): the spec's 5 m/s example. -/
theorem cal_ecef_velocity_formula_witness :
    (cal_ecef_velocity [0, 10] [0, 30] [0, 40] [0, 0])[1]? =
      some (.fin (Real.sqrt (((30 - 0) / (10 - 0)) ^ 2 +
        ((40 - 0) / (10 - 0)) ^ 2 + ((0 - 0) / (10 - 0)) ^ 2))) :=
  (cal_ecef_velocity_formula [0, 10] [0, 30] [0, 40] [0, 0] rfl rfl rfl
    (by simp)).2.2 1 (le_refl 1) 10 0 30 0 40 0 0 0 rfl rfl rfl rfl rfl rfl
    rfl rfl (by norm_num)

/-- Squaring a quotient with denominator zero yields positive infinity or
NaN. -/
theorem sq_fdiv_zero (a : ℝ) :
    (fdiv a 0).sq = .posInf ∨ (fdiv a 0).sq = .nan := by
  by_cases h : a = 0
  · right; simp [fdiv, h, FP.sq]
  · left; by_cases h2 : 0 < a <;> simp [fdiv, h, h2, FP.sq]

/-- Adding values that are positive infinity or NaN stays in that set. -/
theorem add_posInf_or_nan {a b : FP} (ha : a = .posInf ∨ a = .nan)
    (hb : b = .posInf ∨ b = .nan) :
    FP.add a b = .posInf ∨ FP.add a b = .nan := by
  rcases ha with h | h <;> rcases hb with h2 | h2 <;> subst h <;> subst h2 <;>
    simp [FP.add]

/-- The square root of positive infinity or NaN is non-finite. -/
theorem sqrt_posInf_or_nan {a : FP} (ha : a = .posInf ∨ a = .nan) :
    (FP.sqrt a).infOrNan = true := by
  rcases ha with h | h <;> subst h <;> simp [FP.sqrt, FP.infOrNan]

/-- C3: when two consecutive timestamps are equal the estimator still
returns a full-length speed series (no exception), and the entry at that
index is an infinity or NaN. -/
theorem cal_ecef_velocity_equal_timestamps (t x y z : List ℝ)
    (ht : t.length = x.length) (hy : y.length = x.length)
    (hz : z.length = x.length) (i : ℕ) (hi : 1 ≤ i) (hix : i < x.length)
    (ti : ℝ) (hti : t[i]? = some ti) (hti' : t[i - 1]? = some ti) :
    (cal_ecef_velocity t x y z).length = x.length ∧
    ∃ s, (cal_ecef_velocity t x y z)[i]? = some s ∧ s.infOrNan = true := by
  have hlx : (calc_velocity t x).length = x.length := calc_velocity_length t x
  have hly : (calc_velocity t y).length = (calc_velocity t x).length := by
    rw [calc_velocity_length, calc_velocity_length, hy]
  have hlz : (calc_velocity t z).length = (calc_velocity t x).length := by
    rw [calc_velocity_length, calc_velocity_length, hz]
  have hix' : i - 1 < x.length := lt_of_le_of_lt (Nat.sub_le i 1) hix
  have hiy : i < y.length := hy ▸ hix
  have hiy' : i - 1 < y.length := hy ▸ hix'
  have hiz : i < z.length := hz ▸ hix
  have hiz' : i - 1 < z.length := hz ▸ hix'
  have hvx := calc_velocity_succ t x i hi ti ti _ _
    hti hti' (List.getElem?_eq_getElem hix) (List.getElem?_eq_getElem hix')
  have hvy := calc_velocity_succ t y i hi ti ti _ _
    hti hti' (List.getElem?_eq_getElem hiy) (List.getElem?_eq_getElem hiy')
  have hvz := calc_velocity_succ t z i hi ti ti _ _
    hti hti' (List.getElem?_eq_getElem hiz) (List.getElem?_eq_getElem hiz')
  simp only [sub_self] at hvx hvy hvz
  refine ⟨by rw [cal_ecef_velocity, zip3W_length_eq _ _ _ _ hly hlz, hlx],
    _, zip3W_getElem? _ _ _ _ i _ _ _ hvx hvy hvz,
    sqrt_posInf_or_nan (add_posInf_or_nan
      (add_posInf_or_nan (sq_fdiv_zero _) (sq_fdiv_zero _))
      (sq_fdiv_zero _))⟩

/-- Witness for C3 at two samples with equal timestamps. -/
theorem cal_ecef_velocity_equal_timestamps_witness :
    ∃ s, (cal_ecef_velocity [0, 0] [0, 1] [0, 1] [0, 1])[1]? = some s ∧
      s.infOrNan = true :=
  (cal_ecef_velocity_equal_timestamps [0, 0] [0, 1] [0, 1] [0, 1] rfl rfl
    rfl 1 (le_refl 1) (by simp) 0 rfl rfl).2

/-- A left fold of `min` over reals is its initial value or a member. -/
theorem foldl_min_mem :
    ∀ (l : List ℝ) (b : ℝ), l.foldl min b = b ∨ l.foldl min b ∈ l
  | [], _ => Or.inl rfl
  | c :: l, b => by
      rw [List.foldl_cons]
      rcases foldl_min_mem l (min b c) with h | h
      · rcases le_total b c with hbc | hbc
        · exact Or.inl (by rw [h, min_eq_left hbc])
        · exact Or.inr (by rw [h, min_eq_right hbc]
                           exact List.mem_cons_self c l)
      · exact Or.inr (List.mem_cons_of_mem c h)

/-- A left fold of `max` over reals is its initial value or a member. -/
theorem foldl_max_mem :
    ∀ (l : List ℝ) (b : ℝ), l.foldl max b = b ∨ l.foldl max b ∈ l
  | [], _ => Or.inl rfl
  | c :: l, b => by
      rw [List.foldl_cons]
      rcases foldl_max_mem l (max b c) with h | h
      · rcases le_total b c with hbc | hbc
        · exact Or.inr (by rw [h, max_eq_right hbc]
                           exact List.mem_cons_self c l)
        · exact Or.inl (by rw [h, max_eq_left hbc])
      · exact Or.inr (List.mem_cons_of_mem c h)

/-- Evaluating the piecewise-linear walk exactly at a breakpoint of a
strictly increasing series of finite speeds returns that breakpoint's
speed. -/
theorem linInterp_at_breakpoint :
    ∀ (xs ys : List ℝ), List.Pairwise (· < ·) xs → xs.length = ys.length →
      ∀ (i : ℕ) (xv yv : ℝ), xs[i]? = some xv → ys[i]? = some yv →
      linInterp (xs.zip (ys.map FP.fin)) xv = .fin yv := by
  intro xs
  induction xs with
  | nil => intro ys _ _ i xv yv hx _; simp at hx
  | cons x0 xs' ih =>
    intro ys hp hl i xv yv hx hy
    cases ys with
    | nil => simp at hl
    | cons y0 ys' =>
      cases i with
      | zero =>
        simp only [List.getElem?_cons_zero, Option.some.injEq] at hx hy
        subst hx; subst hy
        cases xs' with
        | nil =>
          cases ys' with
          | nil => simp [linInterp]
          | cons _ _ => simp at hl
        | cons x1 xs'' =>
          cases ys' with
          | nil => simp at hl
          | cons y1 ys'' =>
            have hx01 : x0 < x1 :=
              (List.pairwise_cons.mp hp).1 x1 (List.mem_cons_self x1 xs'')
            simp only [List.map_cons, List.zip_cons_cons, linInterp,
              if_pos (le_of_lt hx01), FP.sub_fin,
              FP.divR_fin _ (sub_ne_zero_of_ne hx01.ne'), FP.mulR_fin,
              FP.add_fin, sub_self, mul_zero, zero_add]
      | succ i' =>
        simp only [List.getElem?_cons_succ] at hx hy
        cases xs' with
        | nil => simp at hx
        | cons x1 xs'' =>
          cases ys' with
          | nil => simp at hl
          | cons y1 ys'' =>
            have hp' : List.Pairwise (· < ·) (x1 :: xs'') :=
              (List.pairwise_cons.mp hp).2
            have hl' : (x1 :: xs'').length = (y1 :: ys'').length := by
              simpa using hl
            have hrec := ih (y1 :: ys'') hp' hl' i' xv yv hx hy
            cases i' with
            | zero =>
              simp only [List.getElem?_cons_zero, Option.some.injEq] at hx hy
              subst hx; subst hy
              have hx01 : x0 < x1 :=
                (List.pairwise_cons.mp hp).1 x1 (List.mem_cons_self x1 xs'')
              simp only [List.map_cons, List.zip_cons_cons, linInterp,
                if_pos (le_refl x1), FP.sub_fin,
                FP.divR_fin _ (sub_ne_zero_of_ne hx01.ne'), FP.mulR_fin,
                FP.add_fin, FP.fin.injEq]
              rw [div_mul_cancel₀ _ (sub_ne_zero_of_ne hx01.ne')]
              ring
            | succ i'' =>
              simp only [List.getElem?_cons_succ] at hx hy
              have hmem : xv ∈ xs'' := List.getElem?_mem hx
              have hx1 : x1 < xv := (List.pairwise_cons.mp hp').1 xv hmem
              simp only [List.map_cons, List.zip_cons_cons, linInterp,
                if_neg (not_le.mpr hx1)]
              simpa only [List.map_cons, List.zip_cons_cons] using hrec

/-- C5: for a breakpoint series with strictly increasing times, evaluating
the interpolant exactly at the i-th breakpoint time returns exactly the
i-th recorded speed. -/
theorem interp1dEval_at_breakpoint (time speed : List ℝ)
    (hsort : List.Pairwise (· < ·) time)
    (hlen : time.length = speed.length) (i : ℕ) (ti si : ℝ)
    (hti : time[i]? = some ti) (hsi : speed[i]? = some si) :
    interp1dEval time (speed.map FP.fin) ti = .ok (.fin si) := by
  cases time with
  | nil => simp at hti
  | cons x0 rest =>
    have hmem : ti ∈ x0 :: rest := List.getElem?_mem hti
    have hlo : rest.foldl min x0 ≤ ti := by
      rcases List.mem_cons.mp hmem with h | h
      · exact h ▸ foldl_min_le_init rest x0
      · exact foldl_min_le_of_mem rest x0 ti h
    have hhi : ti ≤ rest.foldl max x0 := by
      rcases List.mem_cons.mp hmem with h | h
      · exact h ▸ le_foldl_max_init rest x0
      · exact le_foldl_max_of_mem rest x0 ti h
    simp only [interp1dEval, List.length_map, hlen, if_true,
      not_lt.mpr hlo, not_lt.mpr hhi, or_self, if_false]
    exact congrArg Except.ok
      (linInterp_at_breakpoint (x0 :: rest) speed hsort hlen i ti si hti hsi)

/-- Witness for C5 at the middle breakpoint of a three-point series. -/
theorem interp1dEval_at_breakpoint_witness :
    interp1dEval [0, 1, 2] ([5, 7, 9].map FP.fin) 1 = .ok (.fin 7) :=
  interp1dEval_at_breakpoint [0, 1, 2] [5, 7, 9]
    (by norm_num [List.pairwise_cons]) rfl 1 1 7 rfl rfl

/-- C4: a query time strictly outside the breakpoint range (strictly below
every breakpoint time or strictly above every breakpoint time, i.e.
outside [min(time), max(time)]) makes the query entry point propagate the
interpolation library's `DomainError` untranslated, and the log is not
written to. -/
theorem interpolate_src_velocity_out_of_range (s1 : ℝ → String)
    (s2 : FP → String) (time : List ℝ) (velocity : List FP)
    (time_request : ℝ) (log : List String)
    (hlen : time.length = velocity.length) (hne : time ≠ [])
    (hout : (∀ u ∈ time, time_request < u) ∨
      (∀ u ∈ time, u < time_request)) :
    interpolate_src_velocity s1 s2 time velocity time_request log =
      .error .domainError ∧
    logAfter (interpolate_src_velocity s1 s2 time velocity time_request log)
      log = log := by
  cases time with
  | nil => exact absurd rfl hne
  | cons x0 rest =>
    have hdom : interp1dEval (x0 :: rest) velocity time_request =
        .error .domainError := by
      have hcond : time_request < rest.foldl min x0 ∨
          rest.foldl max x0 < time_request := by
        rcases hout with h | h
        · left
          rcases foldl_min_mem rest x0 with hm | hm
          · rw [hm]; exact h x0 (List.mem_cons_self x0 rest)
          · exact h _ (List.mem_cons_of_mem x0 hm)
        · right
          rcases foldl_max_mem rest x0 with hm | hm
          · rw [hm]; exact h x0 (List.mem_cons_self x0 rest)
          · exact h _ (List.mem_cons_of_mem x0 hm)
      simp only [interp1dEval, hlen, if_true, if_pos hcond]
    rw [interpolate_src_velocity, hdom]
    exact ⟨rfl, rfl⟩

/-- Witness for C4 at a query above the covered range. -/
theorem interpolate_src_velocity_out_of_range_witness :
    interpolate_src_velocity (fun _ => "") (fun _ => "") [0, 1]
      [.fin 0, .fin 0] 2 ["x"] = .error .domainError ∧
    logAfter (interpolate_src_velocity (fun _ => "") (fun _ => "") [0, 1]
      [.fin 0, .fin 0] 2 ["x"]) ["x"] = ["x"] :=
  interpolate_src_velocity_out_of_range (fun _ => "") (fun _ => "") [0, 1]
    [.fin 0, .fin 0] 2 ["x"] rfl (by simp)
    (Or.inr (by intro u hu; fin_cases hu <;> norm_num))

/-- C7: on every successful query the block appended to the log is exactly
the newline-framed report built from `str` of the query time and `str` of
the interpolated speed, the log grows by appending that single block, and
the identical string is printed to the console. -/
theorem interpolate_src_velocity_output (s1 : ℝ → String) (s2 : FP → String)
    (time : List ℝ) (velocity : List FP) (time_request : ℝ)
    (log : List String) (out : QueryOut)
    (h : interpolate_src_velocity s1 s2 time velocity time_request log =
      .ok out) :
    ∃ v, interp1dEval time velocity time_request = .ok v ∧
      out.newLog = log ++ ["\nVelocity(time=" ++ s1 time_request
        ++ "seconds) = " ++ s2 v ++ " m/s\n"] ∧
      out.console = ["\nVelocity(time=" ++ s1 time_request
        ++ "seconds) = " ++ s2 v ++ " m/s\n"] := by
  rw [interpolate_src_velocity] at h
  cases hi : interp1dEval time velocity time_request with
  | error e => rw [hi] at h; exact absurd h (by simp)
  | ok v =>
      rw [hi] at h
      have hout := Except.ok.inj h
      subst hout
      exact ⟨v, rfl, rfl, rfl⟩

/-- Witness for C7 on a concrete successful query. -/
theorem interpolate_src_velocity_output_witness :
    ∃ v, interp1dEval [0, 1] [FP.fin 2, FP.fin 2] 0 = .ok v ∧
      (QueryOut.mk
        ["\nVelocity(time=" ++ "T" ++ "seconds) = " ++ "V" ++ " m/s\n"]
        ["\nVelocity(time=" ++ "T" ++ "seconds) = " ++ "V" ++ " m/s\n"]
        none).newLog =
        [] ++ ["\nVelocity(time=" ++ "T" ++ "seconds) = " ++ "V"
          ++ " m/s\n"] ∧
      (QueryOut.mk
        ["\nVelocity(time=" ++ "T" ++ "seconds) = " ++ "V" ++ " m/s\n"]
        ["\nVelocity(time=" ++ "T" ++ "seconds) = " ++ "V" ++ " m/s\n"]
        none).console =
        ["\nVelocity(time=" ++ "T" ++ "seconds) = " ++ "V" ++ " m/s\n"] :=
  interpolate_src_velocity_output (fun _ => "T") (fun _ => "V") [0, 1]
    [FP.fin 2, FP.fin 2] 0 []
    ⟨["\nVelocity(time=" ++ "T" ++ "seconds) = " ++ "V" ++ " m/s\n"],
     ["\nVelocity(time=" ++ "T" ++ "seconds) = " ++ "V" ++ " m/s\n"], none⟩
    (by simp only [interpolate_src_velocity, interp1dEval, linInterp,
          List.length_cons, List.length_nil, List.foldl_cons, List.foldl_nil,
          List.zip_cons_cons, List.zip_nil_right, FP.sub_fin, FP.mulR_fin,
          FP.add_fin]
        norm_num [FP.divR])

/-- C6: the build-from-file entry point equals running the Loader,
Converter and Estimator on the file and handing the resulting (time, speed)
series to the build-from-existing-series entry point: same interpolation
result, same log append, same console output, and the same error on every
failing input. -/
theorem interpolate_new_velocity_eq_pipeline (s1 : ℝ → String)
    (s2 : FP → String) (fc : FileContent) (time_request : ℝ)
    (log : List String) :
    interpolate_new_velocity s1 s2 fc time_request log =
      (pipelineSeries fc).bind
        (fun p => interpolate_src_velocity s1 s2 p.1 p.2 time_request log) := by
  rw [interpolate_new_velocity, pipelineSeries]
  cases load_data fc with
  | error e => rfl
  | ok df =>
    dsimp only
    cases getCol df "latitude" with
    | error e => rfl
    | ok lat =>
      dsimp only
      cases getCol df "longitude" with
      | error e => rfl
      | ok lon =>
        dsimp only
        cases getCol df "altitude" with
        | error e => rfl
        | ok alt =>
          dsimp only
          cases getCol df "time" with
          | error e => rfl
          | ok t => rfl

/-- C10: both query entry points always return Python's `None` — the
interpolated value is never the return value of either call. -/
theorem query_entry_points_return_none (s1 : ℝ → String) (s2 : FP → String)
    (time : List ℝ) (velocity : List FP) (time_request : ℝ)
    (log : List String) (fc : FileContent) :
    returnedValue
      (interpolate_src_velocity s1 s2 time velocity time_request log) =
      none ∧
    returnedValue (interpolate_new_velocity s1 s2 fc time_request log) =
      none := by
  constructor
  · rw [interpolate_src_velocity]
    cases interp1dEval time velocity time_request <;> rfl
  · rw [interpolate_new_velocity]
    cases load_data fc with
    | error e => rfl
    | ok df =>
      dsimp only
      cases getCol df "latitude" with
      | error e => rfl
      | ok lat =>
        dsimp only
        cases getCol df "longitude" with
        | error e => rfl
        | ok lon =>
          dsimp only
          cases getCol df "altitude" with
          | error e => rfl
          | ok alt =>
            dsimp only
            cases getCol df "time" with
            | error e => rfl
            | ok t =>
              dsimp only
              cases interp1dEval t
                (cal_ecef_velocity t (lla_to_ecef lat lon alt).1
                  (lla_to_ecef lat lon alt).2.1
                  (lla_to_ecef lat lon alt).2.2) time_request <;> rfl

/-- Counterexample to C8: a file that parses as tabular data but lacks the
required columns is returned by the Loader as a table (here with the single
column "a"), not rejected with a FileNotFound or ParseError kind; the
returned table indeed lacks the `latitude` column. -/
theorem load_data_missing_columns_ok :
    load_data (.parsed ⟨[("a", [0])]⟩) = .ok ⟨[("a", [0])]⟩ ∧
    getCol ⟨[("a", [0])]⟩ "latitude" = .error .attributeError := by
  constructor
  · rfl
  · rfl

/-- C8 amended: a missing path fails with FileNotFound and an unparseable
file with ParseError, but a parseable file is returned as-is without any
schema check — a table lacking the required columns only fails later, at
the caller's first column access, with an AttributeError. -/
theorem load_data_amended :
    load_data .missing = .error .fileNotFound ∧
    load_data .unparseable = .error .parseError ∧
    (∀ df, load_data (.parsed df) = .ok df) ∧
    (∀ (s1 : ℝ → String) (s2 : FP → String) (tq : ℝ) (log : List String),
      interpolate_new_velocity s1 s2 (.parsed ⟨[("a", [0])]⟩) tq log =
        .error .attributeError) :=
  ⟨rfl, rfl, fun _ => rfl, fun _ _ _ _ => rfl⟩
